import Mathlib

/-!
A shallow embedding of `xsmb_auto_update.py` and proofs about it.

The program fetches daily lottery results, appends them to a history CSV
(one row per day: an ISO date and a space-separated string of numeric prize
tokens), computes a per-value (00–99) frequency/recency score table, and
renders two static HTML reports.

Modelling choices:
* A prize token (a maximal run of digit characters) is a `List (Fin 10)`,
  the list of its decimal digit characters in order.
* A calendar day is a `ℤ` (its day number); `pd.Timestamp` subtraction
  `.dt.days` is integer subtraction.
* A history table (`df` in `build_features` / `main`) is a list of
  `(date, tokens-of-all_prizes)` rows.
* Floating-point statistics are modelled exactly: means and variances in
  `ℚ`, the standard deviation and z-scores in `ℝ` (`Real.sqrt`).
* pandas `sort_values(["score","num"], ascending=[False,True])` is a sort
  by the total preorder "higher score first, lower num on ties"; since the
  `num` keys are pairwise distinct the sorted result is unique, so it is
  modelled with `List.insertionSort`.
* `NaN` cells (a value never observed) are `Option.none`.
-/

/-- A prize token: the decimal digit characters of one whitespace-separated
numeric string from the `all_prizes` column. -/
abbrev Token : Type := List (Fin 10)

/-- A history table: one row per stored day, `(date, prize tokens)`. -/
abbrev History : Type := List (ℤ × List Token)

/-- `int(s[-2:])` for a token of length ≥ 2: the value of its last two
digit characters (tens digit then units digit). -/
def lastTwo (s : Token) : ℕ :=
  match s.reverse with
  | a :: b :: _ => 10 * b.val + a.val
  | _ => 0

/-- The per-occurrence rows built by the first loop of `build_features`:
for every stored day and every prize token of length ≥ 2, one
`(date, int(token[-2:]))` record, in source order. -/
def extractRows (df : History) : List (ℤ × ℕ) :=
  df.flatMap fun r => (r.2.filter fun s => 2 ≤ s.length).map fun s => (r.1, lastTwo s)

/-- pandas `Series.max` over a list: `none` on an empty series. -/
def listMax : List ℤ → Option ℤ
  | [] => none
  | d :: ds =>
    match listMax ds with
    | none => some d
    | some m => some (max d m)

/-- `hist["date"].max()`: the latest recorded day (garbage default `0` is
never used: callers only use it when `extractRows df ≠ []`). -/
def latestDay (df : History) : ℤ :=
  (listMax ((extractRows df).map Prod.fst)).getD 0

/-- `hist[hist["date"] >= window_start]` with
`window_start = latest_day - timedelta(days=29)`. -/
def windowRows (df : History) : List (ℤ × ℕ) :=
  (extractRows df).filter fun p => latestDay df - 29 ≤ p.1

/-- `freq`: occurrences of value `n` inside the 30-day window
(`groupby("num").size()`, reindexed over 0–99 with fill value 0). -/
def freq30 (df : History) (n : ℕ) : ℕ :=
  ((windowRows df).filter fun p => p.2 = n).length

/-- `last_seen`: the latest day on which value `n` occurred, `none` when it
never did (`groupby("num")["date"].max()` reindexed over 0–99). -/
def lastSeen (df : History) (n : ℕ) : Option ℤ :=
  listMax (((extractRows df).filter fun p => p.2 = n).map Prod.fst)

/-- `recency = (latest_day - last_seen).dt.days`; `none` models `NaN`. -/
def recencyDays (df : History) (n : ℕ) : Option ℤ :=
  (lastSeen df n).map fun d => latestDay df - d

/-- `out["recency_days"].max()`: the largest defined recency (pandas `max`
skips `NaN`). -/
def maxRecency (df : History) : ℤ :=
  (listMax ((List.range 100).filterMap fun n => recencyDays df n)).getD 0

/-- `rc = out["recency_days"].fillna(out["recency_days"].max())`. -/
def rcFilled (df : History) (n : ℕ) : ℤ :=
  (recencyDays df n).getD (maxRecency df)

/-- `fw.mean()`: mean of the 100-entry frequency column. -/
def freqMean (df : History) : ℚ :=
  (∑ n ∈ Finset.range 100, (freq30 df n : ℚ)) / 100

/-- `fw.std(ddof=1) ^ 2`: sample variance of the frequency column. -/
def freqVar (df : History) : ℚ :=
  (∑ n ∈ Finset.range 100, ((freq30 df n : ℚ) - freqMean df) ^ 2) / 99

/-- `fw.std(ddof=1)`: sample standard deviation of the frequency column. -/
noncomputable def freqStd (df : History) : ℝ :=
  Real.sqrt ((freqVar df : ℚ) : ℝ)

/-- `(fw.std(ddof=1) or 1.0)`: Python `or` yields `1.0` exactly when the
standard deviation is `0.0` (the only falsy float arising here). -/
noncomputable def hotDenom (df : History) : ℝ :=
  if freqStd df = 0 then 1 else freqStd df

/-- `rc.mean()`: mean of the filled recency column. -/
def recMean (df : History) : ℚ :=
  (∑ n ∈ Finset.range 100, (rcFilled df n : ℚ)) / 100

/-- `rc.std(ddof=1) ^ 2`: sample variance of the filled recency column. -/
def recVar (df : History) : ℚ :=
  (∑ n ∈ Finset.range 100, ((rcFilled df n : ℚ) - recMean df) ^ 2) / 99

/-- `rc.std(ddof=1)`. -/
noncomputable def recStd (df : History) : ℝ :=
  Real.sqrt ((recVar df : ℚ) : ℝ)

/-- `(rc.std(ddof=1) or 1.0)`. -/
noncomputable def coldDenom (df : History) : ℝ :=
  if recStd df = 0 then 1 else recStd df

/-- `z_hot = (fw - fw.mean()) / (fw.std(ddof=1) or 1.0)` at value `n`. -/
noncomputable def zHot (df : History) (n : ℕ) : ℝ :=
  ((freq30 df n : ℝ) - (freqMean df : ℝ)) / hotDenom df

/-- `z_cold = (rc - rc.mean()) / (rc.std(ddof=1) or 1.0)` at value `n`. -/
noncomputable def zCold (df : History) (n : ℕ) : ℝ :=
  ((rcFilled df n : ℝ) - (recMean df : ℝ)) / coldDenom df

/-- `out["score"] = 0.6 * z_hot + 0.4 * z_cold` at value `n`. -/
noncomputable def scoreOf (df : History) (n : ℕ) : ℝ :=
  0.6 * zHot df n + 0.4 * zCold df n

/-- One row of the feature table produced by `build_features`. -/
structure FeatureRow where
  num : ℕ
  freq_30d : ℕ
  recency_days : Option ℤ
  score : ℝ

/-- The feature row for value `n` in the non-empty-history branch, before
sorting. -/
noncomputable def mkRow (df : History) (n : ℕ) : FeatureRow :=
  { num := n, freq_30d := freq30 df n, recency_days := recencyDays df n
    score := scoreOf df n }

/-- The feature row for value `n` in the empty-history branch:
`freq_30d = 0`, `recency_days = NaN`, `score = 0`. -/
noncomputable def zeroRow (n : ℕ) : FeatureRow :=
  { num := n, freq_30d := 0, recency_days := none, score := 0 }

/-- The sort key of `sort_values(["score","num"], ascending=[False,True])`:
row `a` comes no later than row `b`. -/
def rowLE (a b : FeatureRow) : Prop :=
  b.score < a.score ∨ (a.score = b.score ∧ a.num ≤ b.num)

noncomputable instance : DecidableRel rowLE := fun a b =>
  inferInstanceAs (Decidable (b.score < a.score ∨ (a.score = b.score ∧ a.num ≤ b.num)))

instance : IsTotal FeatureRow rowLE where
  total a b := by
    rcases lt_trichotomy a.score b.score with h | h | h
    · exact Or.inr (Or.inl h)
    · rcases Nat.le_total a.num b.num with hn | hn
      · exact Or.inl (Or.inr ⟨h, hn⟩)
      · exact Or.inr (Or.inr ⟨h.symm, hn⟩)
    · exact Or.inl (Or.inl h)

instance : IsTrans FeatureRow rowLE where
  trans a b c hab hbc := by
    rcases hab with h1 | ⟨h1, hn1⟩
    · rcases hbc with h2 | ⟨h2, hn2⟩
      · exact Or.inl (h2.trans h1)
      · exact Or.inl (h2 ▸ h1)
    · rcases hbc with h2 | ⟨h2, hn2⟩
      · refine Or.inl ?_
        rw [h1]
        exact h2
      · exact Or.inr ⟨h1.trans h2, hn1.trans hn2⟩

/-- The feature table of `build_features`: on an empty occurrence table the
neutral all-zero table (returned unsorted, i.e. in `num` order), otherwise
the per-value rows sorted by `sort_values(["score","num"],
ascending=[False,True])`. -/
noncomputable def featureTable (df : History) : List FeatureRow :=
  if (extractRows df).isEmpty then
    (List.range 100).map zeroRow
  else
    List.insertionSort rowLE ((List.range 100).map (mkRow df))

/-- The second return value of `build_features`: `None` on an empty
occurrence table, otherwise the latest recorded day. -/
def latestOpt (df : History) : Option ℤ :=
  if (extractRows df).isEmpty then none else some (latestDay df)

/-- `build_features(df, 30)`: the scored feature table together with the
latest recorded day (`None` on an empty occurrence table).  The
`window_days` parameter of the source is unused there (the window is the
hard-coded 29-day offset), so it is omitted. -/
noncomputable def build_features (df : History) : List FeatureRow × Option ℤ :=
  (featureTable df, latestOpt df)

/-- `f"{int(x):02d}"` for `x ≤ 99`: two-digit zero-padded rendering. -/
def pad2 (n : ℕ) : String :=
  if n < 10 then "0" ++ toString n else toString n

/-- `latest_day.strftime("%Y-%m-%d")`, abstracted to the decimal rendering
of the day number (the claims only inspect the `None ↦ ""` branch). -/
def isoDate (d : ℤ) : String := toString d

/-- The observable content of a rendered report: the "Dữ liệu đến" (data
as of) string and the zero-padded top-`k` values in page order.  The
surrounding fixed HTML markup is abstracted away. -/
structure HtmlReport where
  dataAsOf : String
  topNums : List String

/-- `rebuild_html(feature_df, latest_day, topk)`: takes `feature_df.head(topk)`
and renders each row's value with `f"{int(x):02d}"`; the date line shows
`''` when `latest_day` is `None`. -/
def rebuild_html (t : List FeatureRow) (latest : Option ℤ) (topk : ℕ) : HtmlReport :=
  { dataAsOf :=
      match latest with
      | none => ""
      | some d => isoDate d
    topNums := (t.take topk).map fun r => pad2 r.num }

/-- `rebuild_html_compact(feature_df, latest_day, topk)`: same observable
structure as `rebuild_html` (the two differ only in fixed markup and in
which per-row statistics accompany each value). -/
def rebuild_html_compact (t : List FeatureRow) (latest : Option ℤ) (topk : ℕ) : HtmlReport :=
  { dataAsOf :=
      match latest with
      | none => ""
      | some d => isoDate d
    topNums := (t.take topk).map fun r => pad2 r.num }

/-- The file-system / stdout events of one `main` run, in program order. -/
inductive FileEvent
  | readHist
  | writeHist
  | logAdded
  | logFetchError
  | writeIndexHtml
  | writeCompactHtml
deriving DecidableEq

/-- The outcome of one `main` run: the in-memory history at the end of the
run and the ordered event trace. -/
structure RunResult where
  hist : History
  trace : List FileEvent

/-- `df["date"]` as a list. -/
def datesOf (df : History) : List ℤ := df.map Prod.fst

/-- `main(force)` with I/O made explicit:
`csv` is the on-disk CSV content (`none` when the file does not exist),
`fetched` the result of `fetch_latest_from_ketqua()` (`none` when it raises:
network error, bad HTTP status, or no numeric tokens), `force` the CLI flag.
Mirrors the source control flow: read the CSV if it exists, append and
rewrite only when the fetch succeeded and (`force` or today's date is not
yet present), then render both HTML files. -/
def mainRun (csv : Option History) (fetched : Option (ℤ × List Token))
    (force : Bool) : RunResult :=
  let readTrace : List FileEvent := if csv.isSome then [.readHist] else []
  let df := csv.getD []
  match fetched with
  | none =>
    { hist := df
      trace := readTrace ++ [.logFetchError, .writeIndexHtml, .writeCompactHtml] }
  | some (today, prizes) =>
    if force = true ∨ today ∉ datesOf df then
      { hist := df ++ [(today, prizes)]
        trace := readTrace ++ [.writeHist, .logAdded, .writeIndexHtml, .writeCompactHtml] }
    else
      { hist := df
        trace := readTrace ++ [.writeIndexHtml, .writeCompactHtml] }

/-- The two HTML reports rendered at the end of a `main` run, built from
the features of the (possibly updated) history. -/
noncomputable def mainRendered (csv : Option History)
    (fetched : Option (ℤ × List Token)) (force : Bool) :
    HtmlReport × HtmlReport :=
  let r := mainRun csv fetched force
  (rebuild_html (build_features r.hist).1 (build_features r.hist).2 3,
   rebuild_html_compact (build_features r.hist).1 (build_features r.hist).2 3)

/-! ### Concrete histories and spec-side definitions used by the claims -/

/-- A history with a single day carrying 31 prize tokens `"12"`. -/
def dfC2 : History := [(0, List.replicate 31 [1, 2])]

/-- A small concrete history used to witness `C2_freq_le_window_records`. -/
def dfW2 : History := [((5 : ℤ), [[9, 7]])]

/-- A non-empty history table whose only prize token is too short to yield
an occurrence: `build_features` takes the empty-table branch on it. -/
def dfX : History := [((0 : ℤ), [[1]])]

/-- A concrete history used to witness `C10_recency_characterization`. -/
def dfW10 : History := [((3 : ℤ), [[0, 7]])]

/-- Amended-C4's rewrite condition, stated from the spec side: the history
CSV is rewritten exactly when the fetch succeeded and either the force flag
is set or the fetched date is not yet stored. -/
def specAppendOccurs (csv : Option History) (fetched : Option (ℤ × List Token))
    (force : Bool) : Bool :=
  match fetched with
  | none => false
  | some (today, _) => force || decide (today ∉ datesOf (csv.getD []))

/-- The one-row history used to witness `C7_force_appends`. -/
def hW7 : History := [((0 : ℤ), ([] : List Token))]

/-- A history with one day and one token `"12"`: exactly one occurrence. -/
def dfC3 : History := [(0, [[1, 2]])]

/-- A concrete history used to witness `C3_score_formula`. -/
def dfW3 : History := [((2 : ℤ), [[3, 4], [7]])]

/-! ### Basic facts about `listMax` -/

theorem listMax_eq_none_iff {l : List ℤ} : listMax l = none ↔ l = [] := by
  cases l with
  | nil => simp [listMax]
  | cons d ds =>
    rw [listMax]
    cases listMax ds <;> simp

theorem listMax_mem {l : List ℤ} {m : ℤ} (h : listMax l = some m) : m ∈ l := by
  induction l generalizing m with
  | nil => simp [listMax] at h
  | cons d ds ih =>
    rw [listMax] at h
    cases hd : listMax ds with
    | none =>
      rw [hd] at h
      simp only [Option.some.injEq] at h
      simp [← h]
    | some m2 =>
      rw [hd] at h
      simp only [Option.some.injEq] at h
      rcases max_choice d m2 with hc | hc
      · rw [hc] at h
        simp [← h]
      · rw [hc] at h
        exact List.mem_cons_of_mem _ (h ▸ ih hd)

theorem le_listMax {l : List ℤ} {a m : ℤ} (ha : a ∈ l) (h : listMax l = some m) :
    a ≤ m := by
  induction l generalizing m with
  | nil => simp at ha
  | cons d ds ih =>
    rw [listMax] at h
    cases hd : listMax ds with
    | none =>
      rw [hd] at h
      simp only [Option.some.injEq] at h
      have hds : ds = [] := listMax_eq_none_iff.mp hd
      subst hds
      simp at ha
      subst ha
      exact h.le
    | some m2 =>
      rw [hd] at h
      simp only [Option.some.injEq] at h
      subst h
      rcases List.mem_cons.mp ha with rfl | hmem
      · exact le_max_left _ _
      · exact le_trans (ih hmem hd) (le_max_right _ _)

theorem listMax_isSome {l : List ℤ} (h : l ≠ []) : (listMax l).isSome := by
  cases hl : listMax l with
  | none => exact absurd (listMax_eq_none_iff.mp hl) h
  | some m => rfl

/-! ### Facts about the extracted occurrence records -/

theorem lastTwo_lt (s : Token) : lastTwo s < 100 := by
  rw [lastTwo]
  rcases s.reverse with _ | ⟨a, _ | ⟨b, t⟩⟩
  · show (0 : ℕ) < 100
    omega
  · show (0 : ℕ) < 100
    omega
  · show 10 * b.val + a.val < 100
    have ha := a.isLt
    have hb := b.isLt
    omega

theorem extractRows_num_lt {df : History} {p : ℤ × ℕ} (hp : p ∈ extractRows df) :
    p.2 < 100 := by
  rw [extractRows] at hp
  simp only [List.mem_flatMap, List.mem_map, List.mem_filter] at hp
  obtain ⟨r, _, s, _, rfl⟩ := hp
  exact lastTwo_lt s

theorem le_latestDay {df : History} {p : ℤ × ℕ} (hp : p ∈ extractRows df) :
    p.1 ≤ latestDay df := by
  have hne : (extractRows df).map Prod.fst ≠ [] := by
    simp only [ne_eq, List.map_eq_nil_iff]
    intro h
    rw [h] at hp
    simp at hp
  obtain ⟨m, hm⟩ := Option.isSome_iff_exists.mp (listMax_isSome hne)
  rw [latestDay, hm, Option.getD_some]
  exact le_listMax (List.mem_map_of_mem Prod.fst hp) hm

theorem latestDay_mem {df : History} (h : extractRows df ≠ []) :
    ∃ p ∈ extractRows df, p.1 = latestDay df := by
  have hne : (extractRows df).map Prod.fst ≠ [] := by
    simpa [ne_eq, List.map_eq_nil_iff] using h
  obtain ⟨m, hm⟩ := Option.isSome_iff_exists.mp (listMax_isSome hne)
  have := listMax_mem hm
  simp only [List.mem_map] at this
  obtain ⟨p, hp, hpm⟩ := this
  exact ⟨p, hp, by rw [latestDay, hm, Option.getD_some, hpm]⟩

/-! ### Facts about `lastSeen` and `recencyDays` -/

theorem lastSeen_isSome_iff {df : History} {n : ℕ} :
    (lastSeen df n).isSome ↔ ∃ p ∈ extractRows df, p.2 = n := by
  rw [lastSeen]
  constructor
  · intro h
    obtain ⟨m, hm⟩ := Option.isSome_iff_exists.mp h
    have := listMax_mem hm
    simp only [List.mem_map, List.mem_filter] at this
    obtain ⟨p, ⟨hp, hpn⟩, _⟩ := this
    exact ⟨p, hp, by simpa using hpn⟩
  · rintro ⟨p, hp, hpn⟩
    apply listMax_isSome
    simp only [ne_eq, List.map_eq_nil_iff, List.filter_eq_nil_iff, not_forall]
    exact ⟨p, hp, by simp [hpn]⟩

theorem lastSeen_le_latestDay {df : History} {n : ℕ} {d : ℤ}
    (h : lastSeen df n = some d) : d ≤ latestDay df := by
  have := listMax_mem h
  simp only [List.mem_map, List.mem_filter] at this
  obtain ⟨p, ⟨hp, _⟩, hpd⟩ := this
  exact hpd ▸ le_latestDay hp

theorem lastSeen_of_latest {df : History} {p : ℤ × ℕ} (hp : p ∈ extractRows df)
    (hd : p.1 = latestDay df) : lastSeen df p.2 = some (latestDay df) := by
  have hs : (lastSeen df p.2).isSome := lastSeen_isSome_iff.mpr ⟨p, hp, rfl⟩
  obtain ⟨m, hm⟩ := Option.isSome_iff_exists.mp hs
  have hmem : p.1 ∈ ((extractRows df).filter fun q => q.2 = p.2).map Prod.fst := by
    simp only [List.mem_map, List.mem_filter]
    exact ⟨p, ⟨hp, by simp⟩, rfl⟩
  have h1 : latestDay df ≤ m := hd ▸ le_listMax hmem hm
  have h2 : m ≤ latestDay df := lastSeen_le_latestDay hm
  rw [hm, le_antisymm h2 h1]

theorem recencyDays_isSome_iff {df : History} {n : ℕ} :
    (recencyDays df n).isSome ↔ ∃ p ∈ extractRows df, p.2 = n := by
  rw [recencyDays, Option.isSome_map']
  exact lastSeen_isSome_iff

theorem recencyDays_nonneg {df : History} {n : ℕ} {r : ℤ}
    (h : recencyDays df n = some r) : 0 ≤ r := by
  rw [recencyDays] at h
  cases hs : lastSeen df n with
  | none => rw [hs] at h; simp at h
  | some d =>
    rw [hs, Option.map_some'] at h
    simp only [Option.some.injEq] at h
    have := lastSeen_le_latestDay hs
    omega

/-! ### Characterizing the feature table -/

theorem build_features_fst (df : History) : (build_features df).1 = featureTable df :=
  rfl

theorem build_features_snd (df : History) : (build_features df).2 = latestOpt df :=
  rfl

theorem featureTable_of_empty {df : History} (h : extractRows df = []) :
    featureTable df = (List.range 100).map zeroRow := by
  rw [featureTable, if_pos (by rw [h]; rfl)]

theorem featureTable_of_ne {df : History} (h : extractRows df ≠ []) :
    featureTable df = List.insertionSort rowLE ((List.range 100).map (mkRow df)) := by
  rw [featureTable, if_neg (by simpa [List.isEmpty_iff] using h)]

theorem latestOpt_of_empty {df : History} (h : extractRows df = []) :
    latestOpt df = none := by
  rw [latestOpt, if_pos (by rw [h]; rfl)]

theorem latestOpt_of_ne {df : History} (h : extractRows df ≠ []) :
    latestOpt df = some (latestDay df) := by
  rw [latestOpt, if_neg (by simpa [List.isEmpty_iff] using h)]

theorem map_num_perm (df : History) :
    List.Perm ((build_features df).1.map FeatureRow.num) (List.range 100) := by
  rw [build_features_fst]
  by_cases h : extractRows df = []
  · rw [featureTable_of_empty h]
    simp only [List.map_map]
    have hc : (FeatureRow.num ∘ zeroRow) = fun n => n := funext fun n => rfl
    rw [hc, List.map_id']
  · rw [featureTable_of_ne h]
    have hp := (List.perm_insertionSort rowLE ((List.range 100).map (mkRow df))).map
      FeatureRow.num
    refine hp.trans ?_
    simp only [List.map_map]
    have hc : (FeatureRow.num ∘ mkRow df) = fun n => n := funext fun n => rfl
    rw [hc, List.map_id']

theorem mem_table_empty {df : History} (h : extractRows df = []) {row : FeatureRow} :
    row ∈ (build_features df).1 ↔ ∃ n, n < 100 ∧ row = zeroRow n := by
  rw [build_features_fst, featureTable_of_empty h]
  simp only [List.mem_map, List.mem_range]
  constructor
  · rintro ⟨n, hn, rfl⟩
    exact ⟨n, hn, rfl⟩
  · rintro ⟨n, hn, rfl⟩
    exact ⟨n, hn, rfl⟩

theorem mem_table_ne {df : History} (h : extractRows df ≠ []) {row : FeatureRow} :
    row ∈ (build_features df).1 ↔ ∃ n, n < 100 ∧ row = mkRow df n := by
  rw [build_features_fst, featureTable_of_ne h]
  rw [(List.perm_insertionSort rowLE _).mem_iff]
  simp only [List.mem_map, List.mem_range]
  constructor
  · rintro ⟨n, hn, rfl⟩
    exact ⟨n, hn, rfl⟩
  · rintro ⟨n, hn, rfl⟩
    exact ⟨n, hn, rfl⟩

theorem mkRow_mem {df : History} (h : extractRows df ≠ []) {n : ℕ} (hn : n < 100) :
    mkRow df n ∈ (build_features df).1 :=
  (mem_table_ne h).mpr ⟨n, hn, rfl⟩

theorem mkRow_num (df : History) (n : ℕ) : (mkRow df n).num = n := rfl

theorem mkRow_freq (df : History) (n : ℕ) : (mkRow df n).freq_30d = freq30 df n := rfl

theorem mkRow_recency (df : History) (n : ℕ) :
    (mkRow df n).recency_days = recencyDays df n := rfl

theorem mkRow_score (df : History) (n : ℕ) : (mkRow df n).score = scoreOf df n := rfl

theorem zeroRow_num (n : ℕ) : (zeroRow n).num = n := rfl

theorem zeroRow_freq (n : ℕ) : (zeroRow n).freq_30d = 0 := rfl

theorem zeroRow_recency (n : ℕ) : (zeroRow n).recency_days = none := rfl

theorem zeroRow_score (n : ℕ) : (zeroRow n).score = 0 := rfl

/-! ### Claim C1 -/

/-- C1: for every history table (including the empty one), the feature table
returned by `build_features` contains exactly 100 rows, and its `num` column
is a permutation of the integers 0 through 99 — each value appears exactly
once. -/
theorem C1_table_is_all_values (df : History) :
    (build_features df).1.length = 100 ∧
    List.Perm ((build_features df).1.map FeatureRow.num) (List.range 100) := by
  refine ⟨?_, map_num_perm df⟩
  have h := (map_num_perm df).length_eq
  simpa using h

/-! ### Claim C2 -/

set_option maxRecDepth 8000 in
/-- C2 is false as stated: on `dfC2` the feature table's row for value 12
has `freq_30d = 31 > 30`, because `freq` counts occurrence records in the
window, not days. -/
theorem C2_counterexample :
    mkRow dfC2 12 ∈ (build_features dfC2).1 ∧ 30 < (mkRow dfC2 12).freq_30d := by
  constructor
  · exact mkRow_mem (by decide) (by norm_num)
  · rw [mkRow_freq]
    decide

/-- C2 (amended): every row's `freq_30d` is a non-negative integer bounded
by the number of occurrence records inside the 30-day trailing window — not
by the number of days (30). -/
theorem C2_freq_le_window_records (df : History) (row : FeatureRow)
    (hrow : row ∈ (build_features df).1) :
    row.freq_30d ≤ (windowRows df).length := by
  by_cases h : extractRows df = []
  · rw [mem_table_empty h] at hrow
    obtain ⟨n, _, rfl⟩ := hrow
    exact Nat.zero_le _
  · rw [mem_table_ne h] at hrow
    obtain ⟨n, _, rfl⟩ := hrow
    show freq30 df n ≤ _
    exact List.length_filter_le _ _

theorem C2_freq_le_window_records_witness :
    mkRow dfW2 97 ∈ (build_features dfW2).1 ∧
    (mkRow dfW2 97).freq_30d ≤ (windowRows dfW2).length :=
  have hm : mkRow dfW2 97 ∈ (build_features dfW2).1 :=
    mkRow_mem (by decide) (by norm_num)
  ⟨hm, C2_freq_le_window_records dfW2 (mkRow dfW2 97) hm⟩

/-! ### Claim C5 -/

/-- C5: for every history table the feature table is totally ordered —
descending by score, and rows with exactly equal scores appear in ascending
`num` order. -/
theorem C5_table_sorted (df : History) :
    List.Pairwise
      (fun a b => b.score < a.score ∨ (a.score = b.score ∧ a.num < b.num))
      (build_features df).1 := by
  rw [build_features_fst]
  by_cases h : extractRows df = []
  · rw [featureTable_of_empty h]
    rw [List.pairwise_map]
    refine (List.pairwise_lt_range 100).imp ?_
    intro a b hab
    exact Or.inr ⟨rfl, hab⟩
  · rw [featureTable_of_ne h]
    have hs : List.Pairwise rowLE
        (List.insertionSort rowLE ((List.range 100).map (mkRow df))) :=
      List.sorted_insertionSort rowLE _
    have hperm : List.Perm
        ((List.insertionSort rowLE ((List.range 100).map (mkRow df))).map
          FeatureRow.num) (List.range 100) := by
      have hp := map_num_perm df
      rwa [build_features_fst, featureTable_of_ne h] at hp
    have hnodup := hperm.nodup_iff.mpr (List.nodup_range 100)
    have hne : List.Pairwise (fun a b : FeatureRow => a.num ≠ b.num)
        (List.insertionSort rowLE ((List.range 100).map (mkRow df))) := by
      rw [List.Nodup, List.pairwise_map] at hnodup
      exact hnodup
    refine (hs.and hne).imp ?_
    intro a b hab
    rcases hab with ⟨h1 | ⟨h1, h2⟩, hnum⟩
    · exact Or.inl h1
    · exact Or.inr ⟨h1, lt_of_le_of_ne h2 hnum⟩

/-! ### Claim C10 -/

/-- C10 is false as stated: `dfX` is a non-empty history table, yet no row
of its feature table has `recency_days = 0` — the single token has length 1,
so no occurrence is extracted and every recency is undefined. -/
theorem C10_counterexample :
    dfX ≠ ([] : History) ∧
    ∀ row ∈ (build_features dfX).1, row.recency_days ≠ some 0 := by
  refine ⟨by decide, ?_⟩
  intro row hrow
  rw [mem_table_empty (by decide : extractRows dfX = [])] at hrow
  obtain ⟨n, _, rfl⟩ := hrow
  rw [zeroRow_recency]
  simp

/-- C10 (amended): for every history table from which at least one
occurrence is extracted (some prize token has length ≥ 2), a row's
`recency_days` is defined iff its value occurs in the extracted history,
every defined recency is a non-negative integer, and some row — one whose
value was drawn on the latest recorded day — has recency 0. -/
theorem C10_recency_characterization (df : History) (h : extractRows df ≠ []) :
    (∀ row ∈ (build_features df).1,
        (row.recency_days.isSome ↔ row.num ∈ (extractRows df).map Prod.snd) ∧
        ∀ r, row.recency_days = some r → 0 ≤ r) ∧
    ∃ row ∈ (build_features df).1, row.recency_days = some 0 := by
  constructor
  · intro row hrow
    rw [mem_table_ne h] at hrow
    obtain ⟨n, hn, rfl⟩ := hrow
    rw [mkRow_recency, mkRow_num]
    constructor
    · rw [recencyDays_isSome_iff]
      simp only [List.mem_map]
    · intro r hr
      exact recencyDays_nonneg hr
  · obtain ⟨p, hp, hpd⟩ := latestDay_mem h
    refine ⟨mkRow df p.2, mkRow_mem h (extractRows_num_lt hp), ?_⟩
    rw [mkRow_recency, recencyDays, lastSeen_of_latest hp hpd]
    simp

theorem C10_recency_characterization_witness :
    extractRows dfW10 ≠ [] ∧
    ((∀ row ∈ (build_features dfW10).1,
        (row.recency_days.isSome ↔ row.num ∈ (extractRows dfW10).map Prod.snd) ∧
        ∀ r, row.recency_days = some r → 0 ≤ r) ∧
     ∃ row ∈ (build_features dfW10).1, row.recency_days = some 0) :=
  ⟨by decide, C10_recency_characterization dfW10 (by decide)⟩

/-! ### Claim C8 -/

/-- C8: on the empty history table `build_features` reports an undefined
latest day, all-zero scores and frequencies, undefined recency everywhere,
and the rendered report shows an empty data-as-of date with top-3 values
`00`, `01`, `02` in that order. -/
theorem C8_empty_history :
    (build_features []).2 = none ∧
    (∀ row ∈ (build_features []).1,
        row.score = 0 ∧ row.freq_30d = 0 ∧ row.recency_days = none) ∧
    (rebuild_html (build_features []).1 (build_features []).2 3).dataAsOf = "" ∧
    (rebuild_html (build_features []).1 (build_features []).2 3).topNums =
      ["00", "01", "02"] := by
  have he : extractRows ([] : History) = [] := rfl
  refine ⟨?_, ?_, ?_, ?_⟩
  · rw [build_features_snd, latestOpt_of_empty he]
  · intro row hrow
    rw [mem_table_empty he] at hrow
    obtain ⟨n, _, rfl⟩ := hrow
    exact ⟨zeroRow_score n, zeroRow_freq n, zeroRow_recency n⟩
  · rw [build_features_snd, latestOpt_of_empty he]
    rfl
  · rw [build_features_fst, featureTable_of_empty he]
    show (((List.range 100).map zeroRow).take 3).map (fun r => pad2 r.num) =
      ["00", "01", "02"]
    have ht : ((List.range 100).map zeroRow).take 3 =
        [zeroRow 0, zeroRow 1, zeroRow 2] := by
      have h100 : List.range 100 = 0 :: 1 :: 2 :: List.range' 3 97 := by decide
      rw [h100]
      rfl
    rw [ht]
    simp only [List.map_cons, List.map_nil, zeroRow_num]
    decide

/-! ### Claim C4 -/

/-- C4 is false as stated: when today's date is already present and the
force flag is off, `main` does not rewrite the history CSV at all (the
claim demands exactly one rewrite on every run). -/
theorem C4_counterexample :
    (mainRun (some [((0 : ℤ), ([] : List Token))]) (some (0, [])) false).trace.count
      FileEvent.writeHist = 0 := by
  decide

/-- C4 (amended): per run, the history CSV is read exactly once when the
file exists and never otherwise, and rewritten exactly once when the fetch
succeeded and the row is appended (force set, or today's date absent) and
never otherwise. -/
theorem C4_read_write_counts (csv : Option History)
    (fetched : Option (ℤ × List Token)) (force : Bool) :
    (mainRun csv fetched force).trace.count FileEvent.readHist =
      (if csv.isSome then 1 else 0) ∧
    (mainRun csv fetched force).trace.count FileEvent.writeHist =
      (if specAppendOccurs csv fetched force then 1 else 0) := by
  rcases fetched with _ | ⟨today, prizes⟩
  · cases csv <;> simp [mainRun, specAppendOccurs]
  · by_cases hc : force = true ∨ today ∉ datesOf (csv.getD [])
    · have hs : specAppendOccurs csv (some (today, prizes)) force = true := by
        simpa [specAppendOccurs] using hc
      rw [hs]
      simp only [mainRun]
      rw [if_pos hc]
      cases csv <;> simp
    · have hs : specAppendOccurs csv (some (today, prizes)) force = false := by
        push_neg at hc
        simp [specAppendOccurs, hc.1, hc.2]
      rw [hs]
      simp only [mainRun]
      rw [if_neg hc]
      cases csv <;> simp

/-! ### Claim C6 -/

theorem today_mem_after_run (csv : Option History) (today : ℤ) (p : List Token) :
    today ∈ datesOf (mainRun csv (some (today, p)) false).hist := by
  simp only [mainRun]
  split
  · simp [datesOf]
  · rename_i hc
    push_neg at hc
    exact hc.2

/-- C6: running `main` twice on the same day without the force flag is
idempotent on the history — the second run appends nothing (it does not
even rewrite the CSV), and the history after two runs equals the history
after one run. -/
theorem C6_idempotent_same_day (csv : Option History) (today : ℤ)
    (p₁ p₂ : List Token) :
    (mainRun (some (mainRun csv (some (today, p₁)) false).hist)
        (some (today, p₂)) false).hist =
      (mainRun csv (some (today, p₁)) false).hist ∧
    FileEvent.writeHist ∉
      (mainRun (some (mainRun csv (some (today, p₁)) false).hist)
        (some (today, p₂)) false).trace := by
  have hm := today_mem_after_run csv today p₁
  generalize hh : (mainRun csv (some (today, p₁)) false).hist = h₁ at hm ⊢
  constructor
  · simp only [mainRun, Option.getD_some]
    split
    · rename_i hc
      rcases hc with hc | hc
      · exact absurd hc (by simp)
      · exact absurd hm hc
    · rfl
  · simp only [mainRun, Option.getD_some, Option.isSome_some]
    split
    · rename_i hc
      rcases hc with hc | hc
      · exact absurd hc (by simp)
      · exact absurd hm hc
    · simp

/-! ### Claim C7 -/

/-- C7: with the force flag set and a successful fetch, `main` appends
today's row even when that date is already stored, leaving a duplicate
date in the history. -/
theorem C7_force_appends (df : History) (today : ℤ) (p : List Token)
    (h : today ∈ datesOf df) :
    (mainRun (some df) (some (today, p)) true).hist = df ++ [(today, p)] ∧
    2 ≤ (datesOf ((mainRun (some df) (some (today, p)) true).hist)).count today := by
  have hrun : (mainRun (some df) (some (today, p)) true).hist = df ++ [(today, p)] := by
    simp [mainRun]
  refine ⟨hrun, ?_⟩
  rw [hrun, datesOf, List.map_append, List.count_append]
  rw [datesOf] at h
  have h1 : 0 < (df.map Prod.fst).count today := List.count_pos_iff.mpr h
  have h2 : (List.map Prod.fst [(today, p)]).count today = 1 := by simp
  omega

theorem C7_force_appends_witness :
    (0 : ℤ) ∈ datesOf hW7 ∧
    ((mainRun (some hW7) (some (0, [])) true).hist = hW7 ++ [((0 : ℤ), [])] ∧
      2 ≤ (datesOf ((mainRun (some hW7) (some (0, [])) true).hist)).count 0) :=
  ⟨by decide, C7_force_appends hW7 0 [] (by decide)⟩

/-! ### Claim C9 -/

/-- C9: when the fetch raises, `main` catches the error, logs it, leaves
the history exactly as loaded (no CSV rewrite), and still renders both
HTML reports from the existing history — the run continues. -/
theorem C9_fetch_failure (csv : Option History) (force : Bool) :
    (mainRun csv none force).hist = csv.getD [] ∧
    FileEvent.logFetchError ∈ (mainRun csv none force).trace ∧
    FileEvent.writeIndexHtml ∈ (mainRun csv none force).trace ∧
    FileEvent.writeCompactHtml ∈ (mainRun csv none force).trace ∧
    FileEvent.writeHist ∉ (mainRun csv none force).trace ∧
    mainRendered csv none force =
      (rebuild_html (build_features (csv.getD [])).1
        (build_features (csv.getD [])).2 3,
       rebuild_html_compact (build_features (csv.getD [])).1
        (build_features (csv.getD [])).2 3) := by
  have hh : (mainRun csv none force).hist = csv.getD [] := rfl
  refine ⟨hh, ?_, ?_, ?_, ?_, ?_⟩
  · cases csv <;> simp [mainRun]
  · cases csv <;> simp [mainRun]
  · cases csv <;> simp [mainRun]
  · cases csv <;> simp [mainRun]
  · simp only [mainRendered]
    rw [hh]

/-! ### Claim C3 -/

theorem freq30_dfC3 (n : ℕ) : freq30 dfC3 n = if n = 12 then 1 else 0 := by
  by_cases h : n = 12
  · subst h
    decide
  · simp only [h, if_false]
    have hw : windowRows dfC3 = [(0, 12)] := by decide
    rw [freq30, hw]
    simp [List.filter_cons, Ne.symm h]

theorem freqMean_dfC3 : freqMean dfC3 = 1 / 100 := by
  rw [freqMean]
  rw [Finset.sum_congr rfl (fun n _ => by rw [freq30_dfC3 n])]
  simp only [Nat.cast_ite, Nat.cast_one, Nat.cast_zero]
  rw [Finset.sum_ite_eq' (Finset.range 100) 12 (fun _ => (1 : ℚ))]
  norm_num

theorem freqVar_dfC3 : freqVar dfC3 = 1 / 100 := by
  rw [freqVar]
  have hterm : ∀ n ∈ Finset.range 100,
      ((freq30 dfC3 n : ℚ) - freqMean dfC3) ^ 2 =
      (if n = 12 then ((99 : ℚ) / 100) ^ 2 - ((1 : ℚ) / 100) ^ 2 else 0) +
        ((1 : ℚ) / 100) ^ 2 := by
    intro n _
    rw [freq30_dfC3 n, freqMean_dfC3]
    by_cases h : n = 12
    · simp only [h, if_true, Nat.cast_one]
      norm_num
    · simp only [h, if_false, Nat.cast_zero]
      norm_num
  rw [Finset.sum_congr rfl hterm]
  rw [Finset.sum_add_distrib]
  rw [Finset.sum_ite_eq' (Finset.range 100) 12
    (fun _ => ((99 : ℚ) / 100) ^ 2 - ((1 : ℚ) / 100) ^ 2)]
  rw [Finset.sum_const, Finset.card_range]
  norm_num

/-- C3 is false as stated: on `dfC3` the sample standard deviation of the
frequency column is 1/10, and since Python `or` only replaces an exactly
zero value, the divisor actually used is 1/10 < 1.0 — it is not floored
at 1.0. -/
theorem C3_counterexample : hotDenom dfC3 < 1 := by
  rw [hotDenom, freqStd, freqVar_dfC3]
  have hs : Real.sqrt (((1 / 100 : ℚ) : ℝ)) = 1 / 10 := by
    rw [show (((1 / 100 : ℚ) : ℝ)) = (1 / 10 : ℝ) ^ 2 by push_cast; norm_num]
    exact Real.sqrt_sq (by norm_num)
  rw [hs, if_neg (by norm_num : (1 / 10 : ℝ) ≠ 0)]
  norm_num

/-- C3 (amended): each feature row's score is
`0.6 * (freq - mean(freq)) / hotDenom + 0.4 * (recency - mean(recency)) / coldDenom`
where each denominator is the sample standard deviation when it is nonzero
and `1.0` when it is zero — so the divisor is never zero (no division by
zero), but it is not floored at 1.0. -/
theorem C3_score_formula (df : History) (n : ℕ) (h : extractRows df ≠ [])
    (hn : n < 100) :
    ∃ row ∈ (build_features df).1,
      row.num = n ∧
      row.score =
        0.6 * (((row.freq_30d : ℝ) - (freqMean df : ℝ)) / hotDenom df) +
        0.4 * (((rcFilled df n : ℝ) - (recMean df : ℝ)) / coldDenom df) ∧
      hotDenom df ≠ 0 ∧ coldDenom df ≠ 0 := by
  refine ⟨mkRow df n, mkRow_mem h hn, mkRow_num df n, ?_, ?_, ?_⟩
  · rw [mkRow_score, mkRow_freq]
    rfl
  · rw [hotDenom]
    split
    · exact one_ne_zero
    · rename_i hne
      exact hne
  · rw [coldDenom]
    split
    · exact one_ne_zero
    · rename_i hne
      exact hne

theorem C3_score_formula_witness :
    extractRows dfW3 ≠ [] ∧ (5 : ℕ) < 100 ∧
    ∃ row ∈ (build_features dfW3).1,
      row.num = 5 ∧
      row.score =
        0.6 * (((row.freq_30d : ℝ) - (freqMean dfW3 : ℝ)) / hotDenom dfW3) +
        0.4 * (((rcFilled dfW3 5 : ℝ) - (recMean dfW3 : ℝ)) / coldDenom dfW3) ∧
      hotDenom dfW3 ≠ 0 ∧ coldDenom dfW3 ≠ 0 :=
  ⟨by decide, by norm_num, C3_score_formula dfW3 5 (by decide) (by norm_num)⟩
